import Mathlib

/-! Verification of the candle-series signal engine of `trading_bot.py`:
indicator computation (`calculate_technical_indicators`) and signal
classification (`check_signals`).  Prices are modelled as rationals; a pandas
NaN cell is modelled as `Option.none`; the Python `None` dataframe is the
`Option.none` of an optional dataframe. -/

/-- One OHLCV candle, with the dataframe's column names. -/
structure Candle where
  Timestamp : ℤ
  Open : ℚ
  High : ℚ
  Low : ℚ
  Close : ℚ
  Volume : ℚ
  deriving DecidableEq, Repr, Inhabited

/-- One annotated dataframe row: the candle columns plus the indicator columns
added by `calculate_technical_indicators`; a NaN cell is `none`.  Modelled from
the spec for the Bollinger columns: `BB_high = BB_mid + 2·√BB_var` and
`BB_low = BB_mid − 2·√BB_var` are carried through the pair
`(BB_mid, BB_var)` (the 20-period mean and variance), since the standard
deviation is irrational over ℚ and the pair determines both bands. -/
structure Row where
  Timestamp : ℤ
  Open : ℚ
  High : ℚ
  Low : ℚ
  Close : ℚ
  Volume : ℚ
  RSI : Option ℚ
  MACD_line : Option ℚ
  MACD_signal : Option ℚ
  MACD_hist : Option ℚ
  EMA50 : Option ℚ
  EMA200 : Option ℚ
  BB_mid : Option ℚ
  BB_var : Option ℚ
  deriving DecidableEq, Repr, Inhabited

/-- The signal strings returned by `check_signals`. -/
inductive Signal where
  | BUY : Signal
  | SELL : Signal
  | NO_SIGNAL : Signal
  deriving DecidableEq, Repr

/-- A Python value occurring in a `check_signals` return tuple: a signal
string, a float, or `None`/NaN. -/
inductive PyVal where
  | sig : Signal → PyVal
  | num : ℚ → PyVal
  | none : PyVal
  deriving DecidableEq, Repr

/-- View of an optional float (a possibly-NaN dataframe cell) as a returned
Python value. -/
def optPy : Option ℚ → PyVal
  | Option.none => PyVal.none
  | Option.some q => PyVal.num q

/-- The 6-component tuple returned when the dataframe is `None`, empty, or has
fewer than 2 rows: `"NO_SIGNAL", None, None, None, None, None`. -/
def shortTuple : List PyVal :=
  [PyVal.sig Signal.NO_SIGNAL, PyVal.none, PyVal.none, PyVal.none,
   PyVal.none, PyVal.none]

/-- The 7-component tuple `signal, current_price, rsi, macd_line,
macd_signal_line, ema50, ema200` returned on every path that reaches the
latest row. -/
def signalTuple (s : Signal) (latest : Row) : List PyVal :=
  [PyVal.sig s, PyVal.num latest.Close, optPy latest.RSI,
   optPy latest.MACD_line, optPy latest.MACD_signal,
   optPy latest.EMA50, optPy latest.EMA200]

/-- `macd_line > macd_signal_line and previous MACD_line <= previous
MACD_signal`. -/
abbrev macd_bullish_crossover (ml ms pml pms : ℚ) : Prop :=
  ml > ms ∧ pml ≤ pms

/-- `ema50 > ema200 and previous EMA50 <= previous EMA200`. -/
abbrev ema_bullish_crossover (e50 e200 pe50 pe200 : ℚ) : Prop :=
  e50 > e200 ∧ pe50 ≤ pe200

/-- `macd_line < macd_signal_line and previous MACD_line >= previous
MACD_signal`. -/
abbrev macd_bearish_crossover (ml ms pml pms : ℚ) : Prop :=
  ml < ms ∧ pml ≥ pms

/-- `ema50 < ema200 and previous EMA50 >= previous EMA200`. -/
abbrev ema_bearish_crossover (e50 e200 pe50 pe200 : ℚ) : Prop :=
  e50 < e200 ∧ pe50 ≥ pe200

/-- Body of `check_signals` once `previous = df.iloc[-2]` and
`latest = df.iloc[-1]` are in hand: the NaN guard, then the BUY / SELL /
NO_SIGNAL classification. -/
def check2 (previous latest : Row) : List PyVal :=
  if latest.RSI = Option.none ∨ latest.MACD_line = Option.none ∨
     latest.MACD_signal = Option.none ∨ latest.EMA50 = Option.none ∨
     latest.EMA200 = Option.none ∨ previous.MACD_line = Option.none ∨
     previous.MACD_signal = Option.none ∨ previous.EMA50 = Option.none ∨
     previous.EMA200 = Option.none then
    signalTuple Signal.NO_SIGNAL latest
  else
    match latest.RSI, latest.MACD_line, latest.MACD_signal,
          latest.EMA50, latest.EMA200, previous.MACD_line,
          previous.MACD_signal, previous.EMA50, previous.EMA200 with
    | Option.some rsi, Option.some macd_line, Option.some macd_signal_line,
      Option.some ema50, Option.some ema200, Option.some pml,
      Option.some pms, Option.some pe50, Option.some pe200 =>
        if rsi < 30 ∧ macd_bullish_crossover macd_line macd_signal_line pml pms ∧
           ema_bullish_crossover ema50 ema200 pe50 pe200 then
          signalTuple Signal.BUY latest
        else if rsi > 70 ∧ macd_bearish_crossover macd_line macd_signal_line pml pms ∧
           ema_bearish_crossover ema50 ema200 pe50 pe200 then
          signalTuple Signal.SELL latest
        else
          signalTuple Signal.NO_SIGNAL latest
    | _, _, _, _, _, _, _, _, _ => signalTuple Signal.NO_SIGNAL latest

/-- `check_signals(df)`: `NO_SIGNAL` short tuple when the dataframe is `None`
or has fewer than 2 rows, otherwise the classification of the last two rows. -/
def check_signals (df : Option (List Row)) : List PyVal :=
  match df with
  | Option.none => shortTuple
  | Option.some l =>
      if h : l.length < 2 then shortTuple
      else check2 (l.get ⟨l.length - 2, by omega⟩) (l.get ⟨l.length - 1, by omega⟩)

/-- Modelled from the spec: the indicator math lives in the external `ta`
library, absent from this repository.  `EMA(n)` at index `i` of a close
series: seeded at index `n − 1` by the simple average of the first `n` closes,
then the recursion `EMA[i] = close[i]·α + EMA[i-1]·(1-α)` with
`α = 2/(n+1)`.  Indices below `n − 1` (where the column is UNDEFINED) are
given the seed value, which the column never exposes. -/
def emaVal (n : ℕ) (closes : List ℚ) : ℕ → ℚ
  | 0 => (closes.take n).sum / (n : ℚ)
  | i + 1 =>
      if i + 1 ≤ n - 1 then (closes.take n).sum / (n : ℚ)
      else closes.getD (i + 1) 0 * (2 / ((n : ℚ) + 1)) +
           emaVal n closes i * (1 - 2 / ((n : ℚ) + 1))

/-- Positive part of the close-to-close delta at index `i`. -/
def gainAt (closes : List ℚ) (i : ℕ) : ℚ :=
  max (closes.getD i 0 - closes.getD (i - 1) 0) 0

/-- Negative part of the close-to-close delta at index `i`. -/
def lossAt (closes : List ℚ) (i : ℕ) : ℚ :=
  max (closes.getD (i - 1) 0 - closes.getD i 0) 0

/-- Modelled from the spec: Wilder's smoothed average gain over the trailing
14 periods — seeded at index 14 by the simple average of the first 14 gains,
then `avg[i] = (avg[i-1]·13 + gain[i]) / 14`. -/
def avgGain (closes : List ℚ) : ℕ → ℚ
  | 0 => (((List.range 14).map (fun k => gainAt closes (k + 1))).sum) / 14
  | i + 1 =>
      if i + 1 ≤ 14 then (((List.range 14).map (fun k => gainAt closes (k + 1))).sum) / 14
      else (avgGain closes i * 13 + gainAt closes (i + 1)) / 14

/-- Modelled from the spec: Wilder's smoothed average loss over the trailing
14 periods. -/
def avgLoss (closes : List ℚ) : ℕ → ℚ
  | 0 => (((List.range 14).map (fun k => lossAt closes (k + 1))).sum) / 14
  | i + 1 =>
      if i + 1 ≤ 14 then (((List.range 14).map (fun k => lossAt closes (k + 1))).sum) / 14
      else (avgLoss closes i * 13 + lossAt closes (i + 1)) / 14

/-- Modelled from the spec: `RSI = 100 − 100/(1+RS)`, `RS = avgGain/avgLoss`. -/
def rsiVal (closes : List ℚ) (i : ℕ) : ℚ :=
  100 - 100 / (1 + avgGain closes i / avgLoss closes i)

/-- Modelled from the spec: `macd_line = EMA12(close) − EMA26(close)`. -/
def macdLineVal (closes : List ℚ) (i : ℕ) : ℚ :=
  emaVal 12 closes i - emaVal 26 closes i

/-- The defined portion of the MACD line series: its values at indices
`25, 26, …, length − 1` (EMA26 is defined from index 25 on). -/
def macdTail (closes : List ℚ) : List ℚ :=
  ((List.range closes.length).drop 25).map (macdLineVal closes)

/-- Modelled from the spec: `macd_signal = EMA9(macd_line)`, the EMA9 running
over the defined portion of the MACD line, whose position `i − 25`
corresponds to series index `i`. -/
def macdSignalVal (closes : List ℚ) (i : ℕ) : ℚ :=
  emaVal 9 (macdTail closes) (i - 25)

/-- Modelled from the spec: `macd_hist = macd_line − macd_signal`. -/
def macdHistVal (closes : List ℚ) (i : ℕ) : ℚ :=
  macdLineVal closes i - macdSignalVal closes i

/-- Modelled from the spec: `bb_mid = SMA20(close)`, the simple average of
closes at indices `i − 19, …, i`. -/
def bbMidVal (closes : List ℚ) (i : ℕ) : ℚ :=
  (((closes.take (i + 1)).drop (i + 1 - 20)).sum) / 20

/-- Modelled from the spec: the 20-period variance of the closes, whose square
root is the standard deviation entering `bb_high`/`bb_low`. -/
def bbVarVal (closes : List ℚ) (i : ℕ) : ℚ :=
  (((closes.take (i + 1)).drop (i + 1 - 20)).map
    (fun c => (c - bbMidVal closes i) ^ 2)).sum / 20

/-- The annotated row at index `i`: the candle's own columns plus every
indicator column, `none` below each warm-up index.  RSI is defined from index
14 (≥ 14 deltas), EMA(n) from index `n − 1`, the MACD line from index 25
(EMA26's warm-up), the MACD signal and histogram from index `26 + 9 − 2 = 33`,
and the Bollinger columns from index 19. -/
def snapshotAt (cs : List Candle) (i : ℕ) : Row :=
  let closes := cs.map Candle.Close
  let c := cs.getD i default
  { Timestamp := c.Timestamp, Open := c.Open, High := c.High, Low := c.Low,
    Close := c.Close, Volume := c.Volume,
    RSI := if i < 14 then Option.none else Option.some (rsiVal closes i),
    MACD_line := if i < 25 then Option.none else Option.some (macdLineVal closes i),
    MACD_signal := if i < 33 then Option.none else Option.some (macdSignalVal closes i),
    MACD_hist := if i < 33 then Option.none else Option.some (macdHistVal closes i),
    EMA50 := if i < 49 then Option.none else Option.some (emaVal 50 closes i),
    EMA200 := if i < 199 then Option.none else Option.some (emaVal 200 closes i),
    BB_mid := if i < 19 then Option.none else Option.some (bbMidVal closes i),
    BB_var := if i < 19 then Option.none else Option.some (bbVarVal closes i) }

/-- The full annotated dataframe: one snapshot row per candle. -/
def annotate (cs : List Candle) : List Row :=
  (List.range cs.length).map (snapshotAt cs)

/-- `calculate_technical_indicators(df)`: `None` when the input dataframe is
`None` or empty, otherwise the dataframe annotated with every indicator
column (the indicator math itself is modelled from the spec, being delegated
to the external `ta` library in the source). -/
def calculate_technical_indicators (df : Option (List Candle)) : Option (List Row) :=
  match df with
  | Option.none => Option.none
  | Option.some cs => if cs.isEmpty then Option.none else Option.some (annotate cs)

/-- The `EMA50`/`EMA200` column of the annotated dataframe, for `n` one of 50
and 200. -/
def emaColumn (n : ℕ) (cs : List Candle) : List (Option ℚ) :=
  (annotate cs).map (fun r => if n = 50 then r.EMA50 else r.EMA200)

/-- The `RSI` column of the annotated dataframe. -/
def rsiColumn (cs : List Candle) : List (Option ℚ) :=
  (annotate cs).map Row.RSI

/-- The `MACD_line` column of the annotated dataframe. -/
def macdLineColumn (cs : List Candle) : List (Option ℚ) :=
  (annotate cs).map Row.MACD_line

/-- The `MACD_signal` column of the annotated dataframe. -/
def macdSignalColumn (cs : List Candle) : List (Option ℚ) :=
  (annotate cs).map Row.MACD_signal

/-- The `MACD_hist` column of the annotated dataframe. -/
def macdHistColumn (cs : List Candle) : List (Option ℚ) :=
  (annotate cs).map Row.MACD_hist

/-- A row whose indicator cells are all NaN, as in a freshly started series. -/
def rowNone : Row :=
  ⟨0, 5, 5, 5, 5, 1, Option.none, Option.none, Option.none, Option.none,
   Option.none, Option.none, Option.none, Option.none⟩

/-- A row with every indicator cell defined. -/
def rowFull : Row :=
  ⟨1, 5, 6, 4, 5, 1, Option.some 50, Option.some 1, Option.some 2,
   Option.some 3, Option.some 10, Option.some 9, Option.some 5, Option.some 1⟩

/-- A second fully defined row, with different values. -/
def rowFull2 : Row :=
  ⟨2, 5, 6, 4, 7, 1, Option.some 40, Option.some 2, Option.some 1,
   Option.some 3, Option.some 8, Option.some 11, Option.some 5, Option.some 1⟩

/-- A row whose `EMA200` cell is NaN while the rest are defined. -/
def rowNan : Row :=
  ⟨3, 5, 6, 4, 7, 1, Option.some 40, Option.some 1, Option.some 2,
   Option.some 3, Option.some 10, Option.none, Option.some 5, Option.some 1⟩

/-- A sample candle. -/
def candleOne : Candle := ⟨0, 1, 2, 1, 1, 1⟩

lemma check_signals_of_ge_two (l : List Row) (previous latest : Row)
    (h2 : 2 ≤ l.length)
    (hp : l.get? (l.length - 2) = Option.some previous)
    (hl : l.get? (l.length - 1) = Option.some latest) :
    check_signals (Option.some l) = check2 previous latest := by
  simp only [check_signals]
  rw [dif_neg (by omega)]
  rw [List.get?_eq_get (by omega : l.length - 2 < l.length)] at hp
  rw [List.get?_eq_get (by omega : l.length - 1 < l.length)] at hl
  rw [Option.some.inj hp, Option.some.inj hl]

/-- C2 counterexample: on a series of exactly one candle the returned price
component is `None`, not the candle's close (the short path drops the price). -/
theorem C2_counterexample :
    (check_signals (Option.some [rowNone])).get? 1 ≠
      Option.some (PyVal.num rowNone.Close) := by
  decide

/-- C2 (amended): for a `None` dataframe or fewer than 2 rows, `check_signals`
returns `NO_SIGNAL` with the price and all indicator components `None` — even
when one candle (and hence its close) exists. -/
theorem C2_short_series (l : List Row) (h : l.length < 2) :
    check_signals (Option.some l) = shortTuple ∧
      check_signals Option.none = shortTuple := by
  constructor
  · simp only [check_signals]
    rw [dif_pos h]
  · rfl

/-- Witness for C2's amended theorem at a one-row series. -/
theorem C2_short_series_witness :
    check_signals (Option.some [rowNone]) = shortTuple ∧
      check_signals Option.none = shortTuple :=
  C2_short_series [rowNone] (by decide)

/-- C3: with at least 2 rows, if any of the five latest or four previous
indicator cells is NaN, `check_signals` returns `NO_SIGNAL` and carries
exactly the values read from the latest row, fabricating none. -/
theorem C3_nan_guard (df : List Row) (previous latest : Row)
    (h2 : 2 ≤ df.length)
    (hp : df.get? (df.length - 2) = Option.some previous)
    (hl : df.get? (df.length - 1) = Option.some latest)
    (hna : latest.RSI = Option.none ∨ latest.MACD_line = Option.none ∨
      latest.MACD_signal = Option.none ∨ latest.EMA50 = Option.none ∨
      latest.EMA200 = Option.none ∨ previous.MACD_line = Option.none ∨
      previous.MACD_signal = Option.none ∨ previous.EMA50 = Option.none ∨
      previous.EMA200 = Option.none) :
    check_signals (Option.some df) =
      [PyVal.sig Signal.NO_SIGNAL, PyVal.num latest.Close, optPy latest.RSI,
       optPy latest.MACD_line, optPy latest.MACD_signal, optPy latest.EMA50,
       optPy latest.EMA200] := by
  rw [check_signals_of_ge_two df previous latest h2 hp hl]
  unfold check2
  rw [if_pos hna]
  rfl

/-- Witness for C3 on a two-row series whose latest `EMA200` is NaN. -/
theorem C3_nan_guard_witness :
    check_signals (Option.some [rowFull, rowNan]) =
      [PyVal.sig Signal.NO_SIGNAL, PyVal.num rowNan.Close, optPy rowNan.RSI,
       optPy rowNan.MACD_line, optPy rowNan.MACD_signal, optPy rowNan.EMA50,
       optPy rowNan.EMA200] :=
  C3_nan_guard [rowFull, rowNan] rowFull rowNan (by decide) rfl rfl
    (Or.inr (Or.inr (Or.inr (Or.inr (Or.inl rfl)))))

lemma check2_length (previous latest : Row) : (check2 previous latest).length = 7 := by
  unfold check2
  repeat first | rfl | split

/-- C10: a dataframe with fewer than 2 rows yields a 6-component tuple, while
every return path on a dataframe with at least 2 rows yields a 7-component
tuple, so the short-series result lacks one component relative to every other
path. -/
theorem C10_tuple_arity (l : List Row) :
    (l.length < 2 → (check_signals (Option.some l)).length = 6) ∧
    (2 ≤ l.length → (check_signals (Option.some l)).length = 7) := by
  constructor
  · intro h
    simp only [check_signals]
    rw [dif_pos h]
    rfl
  · intro h
    simp only [check_signals]
    rw [dif_neg (by omega)]
    exact check2_length _ _

/-- Witness for C10 at a one-row and at a two-row series. -/
theorem C10_tuple_arity_witness :
    (check_signals (Option.some [rowNone])).length = 6 ∧
      (check_signals (Option.some [rowFull, rowNan])).length = 7 :=
  ⟨(C10_tuple_arity [rowNone]).1 (by decide),
   (C10_tuple_arity [rowFull, rowNan]).2 (by decide)⟩

/-- C1: with at least 2 rows and all nine required cells defined, the signal
is `BUY` exactly when `rsi < 30` together with both bullish crossovers holds,
`SELL` exactly when `rsi > 70` together with both bearish crossovers holds,
and `NO_SIGNAL` in every other case — a crossover without the RSI extreme, or
the RSI extreme without both crossovers, never signals. -/
theorem C1_classification (df : List Row) (previous latest : Row)
    (h2 : 2 ≤ df.length)
    (hp : df.get? (df.length - 2) = Option.some previous)
    (hl : df.get? (df.length - 1) = Option.some latest)
    (rsi macd_line macd_signal_line ema50 ema200 pml pms pe50 pe200 : ℚ)
    (e1 : latest.RSI = Option.some rsi)
    (e2 : latest.MACD_line = Option.some macd_line)
    (e3 : latest.MACD_signal = Option.some macd_signal_line)
    (e4 : latest.EMA50 = Option.some ema50)
    (e5 : latest.EMA200 = Option.some ema200)
    (e6 : previous.MACD_line = Option.some pml)
    (e7 : previous.MACD_signal = Option.some pms)
    (e8 : previous.EMA50 = Option.some pe50)
    (e9 : previous.EMA200 = Option.some pe200) :
    ((check_signals (Option.some df)).head? = Option.some (PyVal.sig Signal.BUY) ↔
       rsi < 30 ∧ macd_bullish_crossover macd_line macd_signal_line pml pms ∧
         ema_bullish_crossover ema50 ema200 pe50 pe200) ∧
    ((check_signals (Option.some df)).head? = Option.some (PyVal.sig Signal.SELL) ↔
       rsi > 70 ∧ macd_bearish_crossover macd_line macd_signal_line pml pms ∧
         ema_bearish_crossover ema50 ema200 pe50 pe200) ∧
    (¬(rsi < 30 ∧ macd_bullish_crossover macd_line macd_signal_line pml pms ∧
         ema_bullish_crossover ema50 ema200 pe50 pe200) →
     ¬(rsi > 70 ∧ macd_bearish_crossover macd_line macd_signal_line pml pms ∧
         ema_bearish_crossover ema50 ema200 pe50 pe200) →
     (check_signals (Option.some df)).head? =
       Option.some (PyVal.sig Signal.NO_SIGNAL)) := by
  rw [check_signals_of_ge_two df previous latest h2 hp hl]
  unfold check2
  rw [if_neg (by simp [e1, e2, e3, e4, e5, e6, e7, e8, e9])]
  simp only [e1, e2, e3, e4, e5, e6, e7, e8, e9]
  by_cases hb : rsi < 30 ∧ macd_bullish_crossover macd_line macd_signal_line pml pms ∧
      ema_bullish_crossover ema50 ema200 pe50 pe200
  · rw [if_pos hb]
    simp only [signalTuple, List.head?_cons]
    refine ⟨iff_of_true (by trivial) hb, ?_, fun hnb _ => absurd hb hnb⟩
    constructor
    · intro h
      exact absurd h (by decide)
    · intro hs
      exact absurd hb.1 (by intro hc; linarith [hs.1])
  · rw [if_neg hb]
    by_cases hs : rsi > 70 ∧ macd_bearish_crossover macd_line macd_signal_line pml pms ∧
        ema_bearish_crossover ema50 ema200 pe50 pe200
    · rw [if_pos hs]
      simp only [signalTuple, List.head?_cons]
      refine ⟨?_, iff_of_true (by trivial) hs, fun _ hns => absurd hs hns⟩
      constructor
      · intro h
        exact absurd h (by decide)
      · intro h
        exact absurd h hb
    · rw [if_neg hs]
      simp only [signalTuple, List.head?_cons]
      exact ⟨⟨fun h => absurd h (by decide), fun h => absurd h hb⟩,
             ⟨fun h => absurd h (by decide), fun h => absurd h hs⟩,
             fun _ _ => by trivial⟩

/-- Witness for C1 on a concrete two-row series with all cells defined. -/
theorem C1_classification_witness :
    ((check_signals (Option.some [rowFull, rowFull2])).head? =
        Option.some (PyVal.sig Signal.BUY) ↔
       (40 : ℚ) < 30 ∧ macd_bullish_crossover 2 1 1 2 ∧
         ema_bullish_crossover 8 11 10 9) ∧
    ((check_signals (Option.some [rowFull, rowFull2])).head? =
        Option.some (PyVal.sig Signal.SELL) ↔
       (40 : ℚ) > 70 ∧ macd_bearish_crossover 2 1 1 2 ∧
         ema_bearish_crossover 8 11 10 9) ∧
    (¬((40 : ℚ) < 30 ∧ macd_bullish_crossover 2 1 1 2 ∧
         ema_bullish_crossover 8 11 10 9) →
     ¬((40 : ℚ) > 70 ∧ macd_bearish_crossover 2 1 1 2 ∧
         ema_bearish_crossover 8 11 10 9) →
     (check_signals (Option.some [rowFull, rowFull2])).head? =
       Option.some (PyVal.sig Signal.NO_SIGNAL)) :=
  C1_classification [rowFull, rowFull2] rowFull rowFull2 (by decide) rfl rfl
    40 2 1 8 11 1 2 10 9 rfl rfl rfl rfl rfl rfl rfl rfl rfl

/-- C9: the classifier's output is a function of the latest two rows only —
two dataframes of length at least 2 agreeing on their last two rows produce
identical results, so re-evaluating a grown series with an unchanged two-row
window never changes the emitted signal. -/
theorem C9_two_row_window (df1 df2 : List Row)
    (h1 : 2 ≤ df1.length) (h2 : 2 ≤ df2.length)
    (hprev : df1.get? (df1.length - 2) = df2.get? (df2.length - 2))
    (hlast : df1.get? (df1.length - 1) = df2.get? (df2.length - 1)) :
    check_signals (Option.some df1) = check_signals (Option.some df2) := by
  rw [List.get?_eq_get (by omega : df1.length - 2 < df1.length),
      List.get?_eq_get (by omega : df2.length - 2 < df2.length)] at hprev
  rw [List.get?_eq_get (by omega : df1.length - 1 < df1.length),
      List.get?_eq_get (by omega : df2.length - 1 < df2.length)] at hlast
  simp only [check_signals]
  rw [dif_neg (by omega), dif_neg (by omega)]
  rw [Option.some.inj hprev, Option.some.inj hlast]

/-- Witness for C9: a two-row series and a three-row extension sharing the
same final two rows classify identically. -/
theorem C9_two_row_window_witness :
    check_signals (Option.some [rowFull, rowFull2]) =
      check_signals (Option.some [rowNone, rowFull, rowFull2]) :=
  C9_two_row_window [rowFull, rowFull2] [rowNone, rowFull, rowFull2]
    (by decide) (by decide) rfl rfl

/-- C7 counterexample: for the empty candle series the engine returns `None`
(after printing an error message), not an empty snapshot list. -/
theorem C7_counterexample :
    calculate_technical_indicators (Option.some ([] : List Candle)) ≠
        Option.some ([] : List Row) ∧
      calculate_technical_indicators (Option.some ([] : List Candle)) =
        Option.none := by
  constructor
  · decide
  · rfl

/-- C7 (amended): for an empty (or `None`) candle series the engine returns
`None` — no snapshot list at all — rather than raising; for every non-empty
series it returns one snapshot row per candle, never raising, with warm-up
cells `none`; and the classifier on the empty or `None` series returns
`NO_SIGNAL` with no partial computation. -/
theorem C7_empty_series (cs : List Candle) (hne : cs ≠ []) :
    calculate_technical_indicators Option.none = Option.none ∧
    calculate_technical_indicators (Option.some ([] : List Candle)) = Option.none ∧
    calculate_technical_indicators (Option.some cs) = Option.some (annotate cs) ∧
    (annotate cs).length = cs.length ∧
    check_signals (Option.some ([] : List Row)) = shortTuple ∧
    check_signals Option.none = shortTuple := by
  refine ⟨rfl, rfl, ?_, ?_, rfl, rfl⟩
  · simp only [calculate_technical_indicators]
    rw [if_neg]
    simp [hne]
  · simp [annotate]

/-- Witness for C7's amended theorem at a one-candle series. -/
theorem C7_empty_series_witness :
    calculate_technical_indicators Option.none = Option.none ∧
    calculate_technical_indicators (Option.some ([] : List Candle)) = Option.none ∧
    calculate_technical_indicators (Option.some [candleOne]) =
      Option.some (annotate [candleOne]) ∧
    (annotate [candleOne]).length = [candleOne].length ∧
    check_signals (Option.some ([] : List Row)) = shortTuple ∧
    check_signals Option.none = shortTuple :=
  C7_empty_series [candleOne] (by decide)

lemma emaVal_seed (n : ℕ) (closes : List ℚ) (i : ℕ) (h : i ≤ n - 1) :
    emaVal n closes i = (closes.take n).sum / (n : ℚ) := by
  cases i with
  | zero => rfl
  | succ j =>
      simp only [emaVal]
      rw [if_pos h]

lemma emaVal_rec (n : ℕ) (closes : List ℚ) (i : ℕ) (h : ¬ i ≤ n - 1) :
    emaVal n closes i = closes.getD i 0 * (2 / ((n : ℚ) + 1)) +
      emaVal n closes (i - 1) * (1 - 2 / ((n : ℚ) + 1)) := by
  cases i with
  | zero => exact absurd (Nat.zero_le _) h
  | succ j =>
      simp only [emaVal]
      rw [if_neg h]
      rfl

lemma avgGain_seed (closes : List ℚ) (i : ℕ) (h : i ≤ 14) :
    avgGain closes i =
      (((List.range 14).map (fun k => gainAt closes (k + 1))).sum) / 14 := by
  cases i with
  | zero => rfl
  | succ j =>
      simp only [avgGain]
      rw [if_pos h]

lemma avgGain_rec (closes : List ℚ) (i : ℕ) (h : 14 < i) :
    avgGain closes i = (avgGain closes (i - 1) * 13 + gainAt closes i) / 14 := by
  cases i with
  | zero => omega
  | succ j =>
      simp only [avgGain]
      rw [if_neg (by omega)]
      rfl

lemma avgLoss_seed (closes : List ℚ) (i : ℕ) (h : i ≤ 14) :
    avgLoss closes i =
      (((List.range 14).map (fun k => lossAt closes (k + 1))).sum) / 14 := by
  cases i with
  | zero => rfl
  | succ j =>
      simp only [avgLoss]
      rw [if_pos h]

lemma avgLoss_rec (closes : List ℚ) (i : ℕ) (h : 14 < i) :
    avgLoss closes i = (avgLoss closes (i - 1) * 13 + lossAt closes i) / 14 := by
  cases i with
  | zero => omega
  | succ j =>
      simp only [avgLoss]
      rw [if_neg (by omega)]
      rfl

lemma annotate_get? (cs : List Candle) (i : ℕ) (hi : i < cs.length) :
    (annotate cs).get? i = Option.some (snapshotAt cs i) := by
  simp [annotate, List.get?_eq_getElem?, List.getElem?_map, List.getElem?_range hi]

lemma emaColumn_get? (n : ℕ) (cs : List Candle) (i : ℕ) (hi : i < cs.length) :
    (emaColumn n cs).get? i =
      Option.some (if n = 50 then (snapshotAt cs i).EMA50 else (snapshotAt cs i).EMA200) := by
  simp [emaColumn, annotate, List.get?_eq_getElem?, List.getElem?_map,
    List.getElem?_range hi]

/-- A 51-candle series with varying closes, for indicator witnesses. -/
def csW : List Candle :=
  (List.range 51).map (fun k => ⟨(k : ℤ), 1, 2, 1, (k : ℚ) + 1, 1⟩)

/-- C4: the `EMA50`/`EMA200` column is UNDEFINED below index `n − 1`, equals
the simple average of the first `n` closes at index `n − 1`, and satisfies the
recursion `EMA[i] = close[i]·α + EMA[i-1]·(1-α)`, `α = 2/(n+1)`, from index
`n` on. -/
theorem C4_ema_column (cs : List Candle) (n : ℕ) (hn : n = 50 ∨ n = 200) :
    (∀ i, i + 1 < n → i < cs.length →
       (emaColumn n cs).get? i = Option.some Option.none) ∧
    (n ≤ cs.length →
       (emaColumn n cs).get? (n - 1) =
         Option.some (Option.some (((cs.map Candle.Close).take n).sum / (n : ℚ)))) ∧
    (∀ i, n ≤ i → i < cs.length →
       (emaColumn n cs).get? i =
         Option.some (Option.some
           ((cs.map Candle.Close).getD i 0 * (2 / ((n : ℚ) + 1)) +
            emaVal n (cs.map Candle.Close) (i - 1) * (1 - 2 / ((n : ℚ) + 1)))) ∧
       (emaColumn n cs).get? (i - 1) =
         Option.some (Option.some (emaVal n (cs.map Candle.Close) (i - 1)))) := by
  have hcol : ∀ i, i < cs.length →
      (emaColumn n cs).get? i =
        Option.some (if i < n - 1 then Option.none
          else Option.some (emaVal n (cs.map Candle.Close) i)) := by
    intro i hi
    rw [emaColumn_get? n cs i hi]
    rcases hn with h | h <;> subst h <;>
      simp only [snapshotAt] <;> norm_num
  refine ⟨?_, ?_, ?_⟩
  · intro i hin hi
    rw [hcol i hi, if_pos (by omega)]
  · intro hlen
    rw [hcol (n - 1) (by omega), if_neg (by omega),
        emaVal_seed n (cs.map Candle.Close) (n - 1) (by omega)]
  · intro i hni hi
    constructor
    · rw [hcol i hi, if_neg (by omega),
          emaVal_rec n (cs.map Candle.Close) i (by omega)]
    · rw [hcol (i - 1) (by omega), if_neg (by omega)]

/-- Witness for C4 on the 51-candle series with `n = 50`, at indices 0, 49
and 50. -/
theorem C4_ema_column_witness :
    (emaColumn 50 csW).get? 0 = Option.some Option.none ∧
    (emaColumn 50 csW).get? 49 =
      Option.some (Option.some (((csW.map Candle.Close).take 50).sum / (50 : ℚ))) ∧
    ((emaColumn 50 csW).get? 50 =
       Option.some (Option.some
         ((csW.map Candle.Close).getD 50 0 * (2 / ((50 : ℚ) + 1)) +
          emaVal 50 (csW.map Candle.Close) 49 * (1 - 2 / ((50 : ℚ) + 1)))) ∧
     (emaColumn 50 csW).get? 49 =
       Option.some (Option.some (emaVal 50 (csW.map Candle.Close) 49))) :=
  ⟨(C4_ema_column csW 50 (Or.inl rfl)).1 0 (by decide) (by decide),
   (C4_ema_column csW 50 (Or.inl rfl)).2.1 (by decide),
   (C4_ema_column csW 50 (Or.inl rfl)).2.2 50 (by decide) (by decide)⟩

/-- C5: the `RSI` column is UNDEFINED below index 14, and from index 14 on
equals `100 − 100/(1+RS)` with `RS = avgGain/avgLoss`, where `avgGain` and
`avgLoss` are Wilder's smoothed averages of the positive and negative
close-to-close deltas — seeded at index 14 by the simple average of the first
14 deltas and updated by `avg[i] = (avg[i-1]·13 + delta[i])/14`. -/
theorem C5_rsi_column (cs : List Candle) :
    (∀ i, i < 14 → i < cs.length →
       (rsiColumn cs).get? i = Option.some Option.none) ∧
    (∀ i, 14 ≤ i → i < cs.length →
       (rsiColumn cs).get? i = Option.some (Option.some
         (100 - 100 / (1 + avgGain (cs.map Candle.Close) i /
            avgLoss (cs.map Candle.Close) i)))) ∧
    (avgGain (cs.map Candle.Close) 14 =
       (((List.range 14).map (fun k => gainAt (cs.map Candle.Close) (k + 1))).sum) / 14) ∧
    (∀ i, 14 < i → avgGain (cs.map Candle.Close) i =
       (avgGain (cs.map Candle.Close) (i - 1) * 13 +
        gainAt (cs.map Candle.Close) i) / 14) ∧
    (avgLoss (cs.map Candle.Close) 14 =
       (((List.range 14).map (fun k => lossAt (cs.map Candle.Close) (k + 1))).sum) / 14) ∧
    (∀ i, 14 < i → avgLoss (cs.map Candle.Close) i =
       (avgLoss (cs.map Candle.Close) (i - 1) * 13 +
        lossAt (cs.map Candle.Close) i) / 14) := by
  have hcol : ∀ i, i < cs.length →
      (rsiColumn cs).get? i =
        Option.some (if i < 14 then Option.none
          else Option.some (rsiVal (cs.map Candle.Close) i)) := by
    intro i hi
    simp [rsiColumn, annotate, List.get?_eq_getElem?, List.getElem?_map,
      List.getElem?_range hi, snapshotAt]
  refine ⟨?_, ?_, ?_, ?_, ?_, ?_⟩
  · intro i h14 hi
    rw [hcol i hi, if_pos h14]
  · intro i h14 hi
    rw [hcol i hi, if_neg (by omega)]
    rfl
  · exact avgGain_seed (cs.map Candle.Close) 14 (by omega)
  · exact fun i h => avgGain_rec (cs.map Candle.Close) i h
  · exact avgLoss_seed (cs.map Candle.Close) 14 (by omega)
  · exact fun i h => avgLoss_rec (cs.map Candle.Close) i h

/-- Witness for C5 on the 51-candle series, at indices 0, 14 and 15. -/
theorem C5_rsi_column_witness :
    (rsiColumn csW).get? 0 = Option.some Option.none ∧
    (rsiColumn csW).get? 14 = Option.some (Option.some
      (100 - 100 / (1 + avgGain (csW.map Candle.Close) 14 /
         avgLoss (csW.map Candle.Close) 14))) ∧
    avgGain (csW.map Candle.Close) 15 =
      (avgGain (csW.map Candle.Close) 14 * 13 +
       gainAt (csW.map Candle.Close) 15) / 14 :=
  ⟨(C5_rsi_column csW).1 0 (by decide) (by decide),
   (C5_rsi_column csW).2.1 14 (by decide) (by decide),
   (C5_rsi_column csW).2.2.2.1 15 (by decide)⟩

/-- C6: the MACD columns of the annotated dataframe — `MACD_line` is
UNDEFINED below index 25 and equals `EMA12(close) − EMA26(close)` from index
25 on; `MACD_signal` and `MACD_hist` are UNDEFINED below index `26 + 9 − 2 =
33`, and from index 33 on the signal is the EMA9 over the defined portion of
the MACD line (whose position `j` holds the line's value at index `25 + j`)
and the histogram is `macd_line − macd_signal`. -/
theorem C6_macd_columns (cs : List Candle) :
    (∀ i, i < 25 → i < cs.length →
       (macdLineColumn cs).get? i = Option.some Option.none) ∧
    (∀ i, 25 ≤ i → i < cs.length →
       (macdLineColumn cs).get? i = Option.some (Option.some
         (emaVal 12 (cs.map Candle.Close) i - emaVal 26 (cs.map Candle.Close) i))) ∧
    (∀ i, i < 33 → i < cs.length →
       (macdSignalColumn cs).get? i = Option.some Option.none ∧
       (macdHistColumn cs).get? i = Option.some Option.none) ∧
    (∀ i, 33 ≤ i → i < cs.length →
       (macdSignalColumn cs).get? i = Option.some (Option.some
         (emaVal 9 (macdTail (cs.map Candle.Close)) (i - 25))) ∧
       (macdHistColumn cs).get? i = Option.some (Option.some
         (macdLineVal (cs.map Candle.Close) i -
          macdSignalVal (cs.map Candle.Close) i))) ∧
    (∀ j, 25 + j < cs.length →
       (macdTail (cs.map Candle.Close)).get? j =
         Option.some (macdLineVal (cs.map Candle.Close) (25 + j))) := by
  have hline : ∀ i, i < cs.length →
      (macdLineColumn cs).get? i =
        Option.some (if i < 25 then Option.none
          else Option.some (macdLineVal (cs.map Candle.Close) i)) := by
    intro i hi
    simp [macdLineColumn, annotate, List.get?_eq_getElem?, List.getElem?_map,
      List.getElem?_range hi, snapshotAt]
  have hsig : ∀ i, i < cs.length →
      (macdSignalColumn cs).get? i =
        Option.some (if i < 33 then Option.none
          else Option.some (macdSignalVal (cs.map Candle.Close) i)) := by
    intro i hi
    simp [macdSignalColumn, annotate, List.get?_eq_getElem?, List.getElem?_map,
      List.getElem?_range hi, snapshotAt]
  have hhist : ∀ i, i < cs.length →
      (macdHistColumn cs).get? i =
        Option.some (if i < 33 then Option.none
          else Option.some (macdHistVal (cs.map Candle.Close) i)) := by
    intro i hi
    simp [macdHistColumn, annotate, List.get?_eq_getElem?, List.getElem?_map,
      List.getElem?_range hi, snapshotAt]
  refine ⟨?_, ?_, ?_, ?_, ?_⟩
  · intro i h25 hi
    rw [hline i hi, if_pos h25]
  · intro i h25 hi
    rw [hline i hi, if_neg (by omega)]
    rfl
  · intro i h33 hi
    exact ⟨by rw [hsig i hi, if_pos h33], by rw [hhist i hi, if_pos h33]⟩
  · intro i h33 hi
    refine ⟨by rw [hsig i hi, if_neg (by omega)]; rfl,
            by rw [hhist i hi, if_neg (by omega)]; rfl⟩
  · intro j hj
    have hlen : (cs.map Candle.Close).length = cs.length := List.length_map cs Candle.Close
    simp [macdTail, List.get?_eq_getElem?, List.getElem?_map, List.getElem?_drop,
      hlen, List.getElem?_range hj]

/-- Witness for C6 on the 51-candle series, at indices 0, 33 and tail
position 8. -/
theorem C6_macd_columns_witness :
    (macdLineColumn csW).get? 0 = Option.some Option.none ∧
    (macdSignalColumn csW).get? 33 = Option.some (Option.some
      (emaVal 9 (macdTail (csW.map Candle.Close)) (33 - 25))) ∧
    (macdTail (csW.map Candle.Close)).get? 8 =
      Option.some (macdLineVal (csW.map Candle.Close) (25 + 8)) :=
  ⟨(C6_macd_columns csW).1 0 (by decide) (by decide),
   ((C6_macd_columns csW).2.2.2.1 33 (by decide) (by decide)).1,
   (C6_macd_columns csW).2.2.2.2 8 (by decide)⟩

lemma getD_take_congr (xs ys : List ℚ) (i m : ℕ) (hm : m ≤ i)
    (h : xs.take (i + 1) = ys.take (i + 1)) : xs.getD m 0 = ys.getD m 0 := by
  have h1 : (xs.take (i + 1))[m]? = (ys.take (i + 1))[m]? := by rw [h]
  rw [List.getElem?_take_of_lt (by omega), List.getElem?_take_of_lt (by omega)] at h1
  simp [List.getD_eq_getElem?_getD, h1]

lemma take_congr_of_le (xs ys : List ℚ) {a b : ℕ} (hab : a ≤ b)
    (h : xs.take b = ys.take b) : xs.take a = ys.take a := by
  have h2 := congrArg (List.take a) h
  rwa [List.take_take, List.take_take, Nat.min_eq_left hab] at h2

lemma emaVal_congr (n : ℕ) (xs ys : List ℚ) :
    ∀ i, n - 1 ≤ i → xs.take (i + 1) = ys.take (i + 1) →
      emaVal n xs i = emaVal n ys i := by
  intro i
  induction i using Nat.strong_induction_on with
  | _ i ih =>
    intro hn h
    by_cases hseed : i ≤ n - 1
    · rw [emaVal_seed n xs i hseed, emaVal_seed n ys i hseed,
          take_congr_of_le xs ys (by omega : n ≤ i + 1) h]
    · rw [emaVal_rec n xs i hseed, emaVal_rec n ys i hseed,
          getD_take_congr xs ys i i (le_refl i) h,
          ih (i - 1) (by omega) (by omega)
            (take_congr_of_le xs ys (by omega : i - 1 + 1 ≤ i + 1) h)]

lemma gainAt_congr (xs ys : List ℚ) (i m : ℕ) (hm : m ≤ i)
    (h : xs.take (i + 1) = ys.take (i + 1)) : gainAt xs m = gainAt ys m := by
  unfold gainAt
  rw [getD_take_congr xs ys i m hm h, getD_take_congr xs ys i (m - 1) (by omega) h]

lemma lossAt_congr (xs ys : List ℚ) (i m : ℕ) (hm : m ≤ i)
    (h : xs.take (i + 1) = ys.take (i + 1)) : lossAt xs m = lossAt ys m := by
  unfold lossAt
  rw [getD_take_congr xs ys i m hm h, getD_take_congr xs ys i (m - 1) (by omega) h]

lemma avgGain_congr (xs ys : List ℚ) :
    ∀ i, 14 ≤ i → xs.take (i + 1) = ys.take (i + 1) →
      avgGain xs i = avgGain ys i := by
  intro i
  induction i using Nat.strong_induction_on with
  | _ i ih =>
    intro h14 h
    by_cases hseed : i ≤ 14
    · rw [avgGain_seed xs i hseed, avgGain_seed ys i hseed]
      congr 1
      exact congrArg List.sum (List.map_congr_left fun k hk => by
        have hk14 : k < 14 := List.mem_range.mp hk
        exact gainAt_congr xs ys i (k + 1) (by omega) h)
    · rw [avgGain_rec xs i (by omega), avgGain_rec ys i (by omega),
          gainAt_congr xs ys i i (le_refl i) h,
          ih (i - 1) (by omega) (by omega)
            (take_congr_of_le xs ys (by omega : i - 1 + 1 ≤ i + 1) h)]

lemma avgLoss_congr (xs ys : List ℚ) :
    ∀ i, 14 ≤ i → xs.take (i + 1) = ys.take (i + 1) →
      avgLoss xs i = avgLoss ys i := by
  intro i
  induction i using Nat.strong_induction_on with
  | _ i ih =>
    intro h14 h
    by_cases hseed : i ≤ 14
    · rw [avgLoss_seed xs i hseed, avgLoss_seed ys i hseed]
      congr 1
      exact congrArg List.sum (List.map_congr_left fun k hk => by
        have hk14 : k < 14 := List.mem_range.mp hk
        exact lossAt_congr xs ys i (k + 1) (by omega) h)
    · rw [avgLoss_rec xs i (by omega), avgLoss_rec ys i (by omega),
          lossAt_congr xs ys i i (le_refl i) h,
          ih (i - 1) (by omega) (by omega)
            (take_congr_of_le xs ys (by omega : i - 1 + 1 ≤ i + 1) h)]

lemma rsiVal_congr (xs ys : List ℚ) (i : ℕ) (h14 : 14 ≤ i)
    (h : xs.take (i + 1) = ys.take (i + 1)) : rsiVal xs i = rsiVal ys i := by
  unfold rsiVal
  rw [avgGain_congr xs ys i h14 h, avgLoss_congr xs ys i h14 h]

lemma macdLineVal_congr (xs ys : List ℚ) (i : ℕ) (h25 : 25 ≤ i)
    (h : xs.take (i + 1) = ys.take (i + 1)) :
    macdLineVal xs i = macdLineVal ys i := by
  unfold macdLineVal
  rw [emaVal_congr 12 xs ys i (by omega) h, emaVal_congr 26 xs ys i (by omega) h]

lemma macdTail_take_congr (xs ys : List ℚ) (i : ℕ) (h25 : 25 ≤ i)
    (hxi : i < xs.length) (hyi : i < ys.length)
    (h : xs.take (i + 1) = ys.take (i + 1)) :
    (macdTail xs).take (i - 25 + 1) = (macdTail ys).take (i - 25 + 1) := by
  apply List.ext_getElem?
  intro j
  rw [List.getElem?_take, List.getElem?_take]
  by_cases hj : j < i - 25 + 1
  · rw [if_pos hj, if_pos hj]
    simp only [macdTail, List.getElem?_map, List.getElem?_drop]
    rw [List.getElem?_range (by omega : 25 + j < xs.length),
        List.getElem?_range (by omega : 25 + j < ys.length)]
    simp only [Option.map_some']
    rw [macdLineVal_congr xs ys (25 + j) (by omega)
          (take_congr_of_le xs ys (by omega : 25 + j + 1 ≤ i + 1) h)]
  · rw [if_neg hj, if_neg hj]

lemma macdSignalVal_congr (xs ys : List ℚ) (i : ℕ) (h33 : 33 ≤ i)
    (hxi : i < xs.length) (hyi : i < ys.length)
    (h : xs.take (i + 1) = ys.take (i + 1)) :
    macdSignalVal xs i = macdSignalVal ys i := by
  unfold macdSignalVal
  exact emaVal_congr 9 (macdTail xs) (macdTail ys) (i - 25) (by omega)
    (macdTail_take_congr xs ys i (by omega) hxi hyi h)

lemma macdHistVal_congr (xs ys : List ℚ) (i : ℕ) (h33 : 33 ≤ i)
    (hxi : i < xs.length) (hyi : i < ys.length)
    (h : xs.take (i + 1) = ys.take (i + 1)) :
    macdHistVal xs i = macdHistVal ys i := by
  unfold macdHistVal
  rw [macdLineVal_congr xs ys i (by omega) h,
      macdSignalVal_congr xs ys i h33 hxi hyi h]

lemma bbMidVal_congr (xs ys : List ℚ) (i : ℕ)
    (h : xs.take (i + 1) = ys.take (i + 1)) : bbMidVal xs i = bbMidVal ys i := by
  unfold bbMidVal
  rw [h]

lemma bbVarVal_congr (xs ys : List ℚ) (i : ℕ)
    (h : xs.take (i + 1) = ys.take (i + 1)) : bbVarVal xs i = bbVarVal ys i := by
  unfold bbVarVal bbMidVal
  rw [h]

lemma snapshotAt_append (cs : List Candle) (c : Candle) (i : ℕ) (hi : i < cs.length) :
    snapshotAt (cs ++ [c]) i = snapshotAt cs i := by
  have hclose : ((cs ++ [c]).map Candle.Close).take (i + 1) =
      (cs.map Candle.Close).take (i + 1) := by
    rw [List.map_append]
    exact List.take_append_of_le_length (by simp; omega)
  have hxlen : i < ((cs ++ [c]).map Candle.Close).length := by simp; omega
  have hylen : i < (cs.map Candle.Close).length := by simp [hi]
  have hcand : (cs ++ [c]).getD i default = cs.getD i default :=
    List.getD_append _ _ _ _ hi
  have hRSI : (if i < 14 then Option.none
        else Option.some (rsiVal ((cs ++ [c]).map Candle.Close) i)) =
      (if i < 14 then Option.none
        else Option.some (rsiVal (cs.map Candle.Close) i)) := by
    by_cases h14 : i < 14
    · rw [if_pos h14, if_pos h14]
    · rw [if_neg h14, if_neg h14, rsiVal_congr _ _ i (by omega) hclose]
  have hML : (if i < 25 then Option.none
        else Option.some (macdLineVal ((cs ++ [c]).map Candle.Close) i)) =
      (if i < 25 then Option.none
        else Option.some (macdLineVal (cs.map Candle.Close) i)) := by
    by_cases h25 : i < 25
    · rw [if_pos h25, if_pos h25]
    · rw [if_neg h25, if_neg h25, macdLineVal_congr _ _ i (by omega) hclose]
  have hMS : (if i < 33 then Option.none
        else Option.some (macdSignalVal ((cs ++ [c]).map Candle.Close) i)) =
      (if i < 33 then Option.none
        else Option.some (macdSignalVal (cs.map Candle.Close) i)) := by
    by_cases h33 : i < 33
    · rw [if_pos h33, if_pos h33]
    · rw [if_neg h33, if_neg h33,
          macdSignalVal_congr _ _ i (by omega) hxlen hylen hclose]
  have hMH : (if i < 33 then Option.none
        else Option.some (macdHistVal ((cs ++ [c]).map Candle.Close) i)) =
      (if i < 33 then Option.none
        else Option.some (macdHistVal (cs.map Candle.Close) i)) := by
    by_cases h33 : i < 33
    · rw [if_pos h33, if_pos h33]
    · rw [if_neg h33, if_neg h33,
          macdHistVal_congr _ _ i (by omega) hxlen hylen hclose]
  have hE50 : (if i < 49 then Option.none
        else Option.some (emaVal 50 ((cs ++ [c]).map Candle.Close) i)) =
      (if i < 49 then Option.none
        else Option.some (emaVal 50 (cs.map Candle.Close) i)) := by
    by_cases h49 : i < 49
    · rw [if_pos h49, if_pos h49]
    · rw [if_neg h49, if_neg h49, emaVal_congr 50 _ _ i (by omega) hclose]
  have hE200 : (if i < 199 then Option.none
        else Option.some (emaVal 200 ((cs ++ [c]).map Candle.Close) i)) =
      (if i < 199 then Option.none
        else Option.some (emaVal 200 (cs.map Candle.Close) i)) := by
    by_cases h199 : i < 199
    · rw [if_pos h199, if_pos h199]
    · rw [if_neg h199, if_neg h199, emaVal_congr 200 _ _ i (by omega) hclose]
  have hBM : (if i < 19 then Option.none
        else Option.some (bbMidVal ((cs ++ [c]).map Candle.Close) i)) =
      (if i < 19 then Option.none
        else Option.some (bbMidVal (cs.map Candle.Close) i)) := by
    by_cases h19 : i < 19
    · rw [if_pos h19, if_pos h19]
    · rw [if_neg h19, if_neg h19, bbMidVal_congr _ _ i hclose]
  have hBV : (if i < 19 then Option.none
        else Option.some (bbVarVal ((cs ++ [c]).map Candle.Close) i)) =
      (if i < 19 then Option.none
        else Option.some (bbVarVal (cs.map Candle.Close) i)) := by
    by_cases h19 : i < 19
    · rw [if_pos h19, if_pos h19]
    · rw [if_neg h19, if_neg h19, bbVarVal_congr _ _ i hclose]
  simp only [snapshotAt]
  rw [hcand, hRSI, hML, hMS, hMH, hE50, hE200, hBM, hBV]

/-- C8: causality — appending one candle to a series and recomputing the full
annotated series reproduces, at every prior index, exactly the same snapshot
row (all indicator fields, including definedness); each snapshot depends only
on its own candle and earlier candles. -/
theorem C8_causality (cs : List Candle) (c : Candle) (i : ℕ) (hi : i < cs.length) :
    (annotate (cs ++ [c])).get? i = (annotate cs).get? i := by
  rw [annotate_get? (cs ++ [c]) i (by simp; omega), annotate_get? cs i hi,
      snapshotAt_append cs c i hi]

/-- Witness for C8: appending a candle to a one-candle series leaves the
snapshot at index 0 unchanged. -/
theorem C8_causality_witness :
    (annotate ([candleOne] ++ [candleOne])).get? 0 = (annotate [candleOne]).get? 0 :=
  C8_causality [candleOne] candleOne 0 (by decide)
